/-
Verification development for the stac-trace repository (src/stac_trace.py).

The file shallowly embeds the algorithmic core of the program:
  * the significance scoring heuristic (calculate_significance_score),
  * the element name-resolution / low-score discard step of
    get_infrastructure_data,
  * the retry loop of get_infrastructure_data and the error path of
    UP42Client.search_catalog,
  * the sequential and parallel deep-search orchestration
    (UP42Client.search_catalog_deep / _search_catalog_parallel),
  * the grid clustering pipeline of analyze_recent_activity.

Modelling conventions:
  * Python dicts of string tags are association lists (first binding wins,
    like a dict with unique keys);
  * Python floats (coordinates) are rationals; Python datetimes are integer
    counts of microseconds (their native resolution), one hour being
    3600000000 microseconds.  Python computes time_span_hours and the
    0.3/0.01 factors in binary floating point; for the integer counts and
    microsecond-resolution spans handled here the float comparisons agree
    with the exact rational ones, which is what is embedded (see the
    comments at the comparison sites);
  * Python int() truncates toward zero: on a rational num/den (den > 0)
    this is Int.tdiv num den; Python floor division is Int.fdiv;
  * the HTTP backend of a deep-search run is a deterministic function
    from a queried window to the finite script of responses the server
    would give for page 0, page 1 (first continuation), ...; a none
    entry is a failed request (search_catalog's non-200 branch returns
    the empty dict, a failed continuation GET breaks the pagination
    loop);
  * the bounded recursions of the orchestration loops take an explicit
    fuel argument so that every definition evaluates by kernel
    reduction; the fuel supplied by the top-level entry points is proved
    sufficient where a claim needs the loop to run to completion.

The file is laid out as all definitions first, then all theorems.
-/
import Mathlib

set_option maxRecDepth 100000

namespace StacTrace

/-! ### Definitions -/

/-- Tag dictionaries of OSM elements: association lists of string pairs. -/
def Tags := List (String × String)


/-- tags.get(k): first binding of k, like a Python dict access with default None. -/
def tget (tags : Tags) (k : String) : Option String :=
  List.lookup k tags


/-- tags.get(k) used in a truthiness test: a present but empty string is falsy
in Python, so it behaves like an absent key. -/
def tgetT (tags : Tags) (k : String) : Option String :=
  match List.lookup k tags with
  | some v => if v = "" then none else some v
  | none => none


/-- Value of a nonempty list of decimal digit characters, most significant
first; none if the list is empty or contains a non-digit. -/
def digitsVal (cs : List Char) : Option ℕ :=
  if cs ≠ [] ∧ cs.all Char.isDigit then
    some (cs.foldl (fun acc c => acc * 10 + (c.toNat - 48)) 0)
  else none


/-- Model of Python's int(str): optional sign followed by decimal digits,
None models a raised ValueError (the code catches it and adds nothing).
Exotic accepted forms (surrounding whitespace, underscores between digits)
are not modelled; they only enlarge the set of parseable strings. -/
def pyInt? (s : String) : Option ℤ :=
  match s.data with
  | '-' :: rest => (digitsVal rest).map (fun n => -(n : ℤ))
  | '+' :: rest => (digitsVal rest).map (fun n => (n : ℤ))
  | cs => (digitsVal cs).map (fun n => (n : ℤ))


/-- element.get("type") scoring: relation +15, way +10, node +5. -/
def base_type_score (etype : Option String) : ℤ :=
  if etype = some "relation" then 15
  else if etype = some "way" then 10
  else if etype = some "node" then 5
  else 0


/-- if tags.get("name") and tags["name"] != "Unnamed": +20. -/
def name_bonus (tags : Tags) : ℤ :=
  match tgetT tags "name" with
  | some v => if v ≠ "Unnamed" then 20 else 0
  | none => 0


/-- if tags.get("wikipedia") or tags.get("wikidata"): +30. -/
def wiki_bonus (tags : Tags) : ℤ :=
  if (tgetT tags "wikipedia").isSome ∨ (tgetT tags "wikidata").isSome then 30 else 0


/-- if tags.get("operator"): +10. -/
def operator_bonus (tags : Tags) : ℤ :=
  if (tgetT tags "operator").isSome then 10 else 0


/-- if "military" in tags: +100 (key presence, value irrelevant). -/
def military_bonus (tags : Tags) : ℤ :=
  if (tget tags "military").isSome then 100 else 0


/-- if tags.get("aeroway") == "aerodrome": +80. -/
def aeroway_bonus (tags : Tags) : ℤ :=
  if tget tags "aeroway" = some "aerodrome" then 80 else 0


/-- if tags.get("power") == "plant": +70. -/
def power_bonus (tags : Tags) : ℤ :=
  if tget tags "power" = some "plant" then 70 else 0


/-- if tags.get("amenity") == "embassy": +60. -/
def embassy_bonus (tags : Tags) : ℤ :=
  if tget tags "amenity" = some "embassy" then 60 else 0


/-- if tags.get("amenity") == "government": +50. -/
def government_bonus (tags : Tags) : ℤ :=
  if tget tags "amenity" = some "government" then 50 else 0


/-- if tags.get("amenity") == "university": +40. -/
def university_bonus (tags : Tags) : ℤ :=
  if tget tags "amenity" = some "university" then 40 else 0


/-- Inner hospital block: if tags.get("beds"): try beds = int(tags["beds"]);
score += min(beds // 10, 30).  Python // is floor division (Int.fdiv). -/
def beds_bonus (tags : Tags) : ℤ :=
  match tgetT tags "beds" with
  | some v =>
    match pyInt? v with
    | some n => min (Int.fdiv n 10) 30
    | none => 0
  | none => 0


/-- if tags.get("amenity") == "hospital": +35 plus the beds bonus. -/
def hospital_bonus (tags : Tags) : ℤ :=
  if tget tags "amenity" = some "hospital" then 35 + beds_bonus tags else 0


/-- if tags.get("telecom") == "data_center" or tags.get("building") == "data_center": +45. -/
def data_center_bonus (tags : Tags) : ℤ :=
  if tget tags "telecom" = some "data_center" ∨ tget tags "building" = some "data_center"
  then 45 else 0


/-- if tags.get("railway") == "station": +35. -/
def railway_bonus (tags : Tags) : ℤ :=
  if tget tags "railway" = some "station" then 35 else 0


/-- if tags.get("landuse") == "industrial" and tags.get("name"): +30. -/
def industrial_bonus (tags : Tags) : ℤ :=
  if tget tags "landuse" = some "industrial" ∧ (tgetT tags "name").isSome then 30 else 0


/-- if tags.get("building:levels"): try levels = int(...); if levels > 10:
score += levels * 2. -/
def levels_bonus (tags : Tags) : ℤ :=
  match tgetT tags "building:levels" with
  | some v =>
    match pyInt? v with
    | some n => if 10 < n then n * 2 else 0
    | none => 0
  | none => 0


/-- if tags.get("capacity"): try capacity = int(...); score += min(capacity // 100, 20). -/
def capacity_bonus (tags : Tags) : ℤ :=
  match tgetT tags "capacity" with
  | some v =>
    match pyInt? v with
    | some n => min (Int.fdiv n 100) 20
    | none => 0
  | none => 0


/-- importance tier: international +40, national +30, regional +20. -/
def importance_bonus (tags : Tags) : ℤ :=
  if tget tags "importance" = some "international" then 40
  else if tget tags "importance" = some "national" then 30
  else if tget tags "importance" = some "regional" then 20
  else 0


/-- calculate_significance_score(element, tags): the sum of all applicable
bonuses, in source order.  The element dict is only consulted for its
"type" entry, passed here as etype. -/
def calculate_significance_score (etype : Option String) (tags : Tags) : ℤ :=
  base_type_score etype + name_bonus tags + wiki_bonus tags + operator_bonus tags +
    military_bonus tags + aeroway_bonus tags + power_bonus tags + embassy_bonus tags +
    government_bonus tags + university_bonus tags + hospital_bonus tags +
    data_center_bonus tags + railway_bonus tags + industrial_bonus tags +
    levels_bonus tags + capacity_bonus tags + importance_bonus tags


/-- Parsed beds attribute, when present, truthy and parseable. -/
def beds_val (tags : Tags) : Option ℤ :=
  (tgetT tags "beds").bind pyInt?


/-- Parsed capacity attribute, when present, truthy and parseable. -/
def capacity_val (tags : Tags) : Option ℤ :=
  (tgetT tags "capacity").bind pyInt?


/-- name = tags.get("name", tags.get("operator", "Unnamed")) — presence-based
fallback chain (an empty string present under "name" is kept). -/
def resolved_name (tags : Tags) : String :=
  (tget tags "name").getD ((tget tags "operator").getD "Unnamed")


/-- The low-score discard: if score < 15 and name == "Unnamed": continue. -/
def discards (etype : Option String) (tags : Tags) : Bool :=
  decide (calculate_significance_score etype tags < 15) && (resolved_name tags == "Unnamed")



structure StacItem where
  ident : ℕ
  ts : ℤ
  centroid : Option (ℚ × ℚ)
  bbox : List ℚ
deriving DecidableEq, Repr


/-- Python int() on a rational: truncation toward zero (num/den with den > 0). -/
def pyTrunc (q : ℚ) : ℤ := Int.tdiv q.num (q.den : ℤ)


/-- The grid key f"{lat},{lon}" used for the locations dict. -/
def keyStr (la lo : ℤ) : String := toString la ++ "," ++ toString lo


/-- Model of str.split(",") over the character list. -/
def splitCommaAux : List Char → List Char → List String
  | [], acc => [String.mk acc.reverse]
  | c :: cs, acc =>
    if c = ',' then String.mk acc.reverse :: splitCommaAux cs []
    else splitCommaAux cs (c :: acc)


/-- str.split(",") on a whole string. -/
def splitComma (s : String) : List String := splitCommaAux s.data []


/-- lat, lon = map(int, loc_key.split(',')): exact on every key built by
keyStr, which is the only way keys enter the locations dict. -/
def parseKey (s : String) : ℤ × ℤ :=
  match splitComma s with
  | [a, b] => ((pyInt? a).getD 0, (pyInt? b).getD 0)
  | _ => (0, 0)


/-- Location resolution and integer-degree bucketing of one item
(lines 927-944): prefer the geometry centroid (an absent or empty centroid
dict is falsy), else the bbox midpoint when the bbox has at least 4 entries,
else skip the item. -/
def resolveCell (it : StacItem) : Option String :=
  match it.centroid with
  | some p => some (keyStr (pyTrunc p.1) (pyTrunc p.2))
  | none =>
    if 4 ≤ it.bbox.length then
      some (keyStr (pyTrunc ((it.bbox.getD 1 0 + it.bbox.getD 3 0) / 2))
        (pyTrunc ((it.bbox.getD 0 0 + it.bbox.getD 2 0) / 2)))
    else none


/-- The multiset of occupied grid keys, one entry per located item; the
locations dict maps each distinct key to its multiplicity here. -/
def cellStrs (items : List StacItem) : List String := items.filterMap resolveCell


/-- Lexicographic comparison of character lists by code point, the order
Python uses on strings. -/
def chListLe : List Char → List Char → Bool
  | [], _ => true
  | _ :: _, [] => false
  | a :: as, b :: bs =>
    if a.val.toNat < b.val.toNat then true
    else if b.val.toNat < a.val.toNat then false
    else chListLe as bs


/-- Python string ≤ by code points. -/
def pyStrLe (a b : String) : Bool := chListLe a.data b.data


/-- sorted(..., key=lambda x: (-x[1], x[0])) on (grid-key, count) pairs:
larger counts first, ties in count resolved by Python string order of the
key.  Total, transitive, and antisymmetric, so the sorted list is the unique
sorted permutation — insertion sort below yields exactly Python's result. -/
def cellLE (a b : String × ℕ) : Prop :=
  (decide (b.2 < a.2) || ((a.2 == b.2) && pyStrLe a.1 b.1)) = true


instance : DecidableRel cellLE := fun a b => by
  unfold cellLE; infer_instance


/-- The locations dict as (key, count) pairs, one per distinct key. -/
def cellPairs (items : List StacItem) : List (String × ℕ) :=
  (cellStrs items).dedup.map (fun k => (k, (cellStrs items).count k))


/-- sorted_locations (line 951). -/
def sortedCells (items : List StacItem) : List (String × ℕ) :=
  List.insertionSort cellLE (cellPairs items)


/-- One merged cluster, instrumented with the absorbed cell coordinates and
counts next to the centroid and total the code computes (lines 957-980). -/
structure Cluster where
  lats : List ℤ
  lons : List ℤ
  counts : List ℕ
  total : ℕ
  centerLat : ℤ
  centerLon : ℤ
deriving DecidableEq, Repr


/-- State threaded through the 8-neighbor scan of one seed cell. -/
structure ScanState where
  total : ℕ
  lats : List ℤ
  lons : List ℤ
  counts : List ℕ
  processed : List String
deriving Repr


/-- The neighbor offsets in Python loop order (dlat outer, dlon inner,
(0,0) skipped). -/
def offsets : List (ℤ × ℤ) :=
  [(-1,-1),(-1,0),(-1,1),(0,-1),(0,1),(1,-1),(1,0),(1,1)]


/-- One neighbor check (lines 964-975): absorb the adjacent cell iff it is
occupied, unprocessed, and its count exceeds 30% of the seed count.  The
test locations[adj_key] > count * 0.3 is embedded exactly as
10 * locations[adj] > 3 * count; the binary-float product count * 0.3
rounds to a value with the same integer comparisons for every count in
range here. -/
def scanStep (countFn : String → ℕ) (lat lon : ℤ) (seedCount : ℕ)
    (st : ScanState) (d : ℤ × ℤ) : ScanState :=
  let adjKey := keyStr (lat + d.1) (lon + d.2)
  if 0 < countFn adjKey ∧ adjKey ∉ st.processed ∧
      3 * seedCount < 10 * countFn adjKey then
    { total := st.total + countFn adjKey
      lats := st.lats ++ [lat + d.1]
      lons := st.lons ++ [lon + d.2]
      counts := st.counts ++ [countFn adjKey]
      processed := adjKey :: st.processed }
  else st


/-- The merge pass over the sorted cells (lines 953-986): skip processed
seeds, scan the 8 neighbors of each remaining seed, emit a Cluster whose
centroid is the floor-divided mean (Python //) of the absorbed coordinates. -/
def mergeLoop (countFn : String → ℕ) : List (String × ℕ) → List String → List Cluster
  | [], _ => []
  | (key, cnt) :: rest, processed =>
    if key ∈ processed then mergeLoop countFn rest processed
    else
      let ll := parseKey key
      let st :=
        offsets.foldl (scanStep countFn ll.1 ll.2 cnt) ⟨cnt, [ll.1], [ll.2], [cnt], key :: processed⟩
      { lats := st.lats, lons := st.lons, counts := st.counts, total := st.total
        centerLat := Int.fdiv st.lats.sum (st.lats.length : ℤ)
        centerLon := Int.fdiv st.lons.sum (st.lons.length : ℤ) } ::
        mergeLoop countFn rest st.processed


/-- merged_locations insertion with max on centroid-key collision
(lines 983-986); a hit updates the entry in place, like a Python dict. -/
def insertMax : List (String × ℕ) → String → ℕ → List (String × ℕ)
  | [], k, c => [(k, c)]
  | (k0, c0) :: rest, k, c =>
    if k0 = k then (k0, max c0 c) :: rest else (k0, c0) :: insertMax rest k c


/-- count >= min_threshold with min_threshold = max(5, min(50, n * 0.01)),
scaled by 100 into exact integers. -/
def passesThreshold (nItems count : ℕ) : Bool :=
  decide (max 500 (min 5000 nItems) ≤ 100 * count)


/-- The clusters formed for an item list (the merge pass applied to its
sorted locations dict). -/
def clusters_of (items : List StacItem) : List Cluster :=
  mergeLoop (fun k => (cellStrs items).count k) (sortedCells items) []


/-- The hotspot list computed by analyze_recent_activity (lines 988-1000):
merge-pass clusters keyed by centroid with max on collision, sorted again by
(-count, key) and filtered by the significance threshold. -/
def analyze_hotspots (items : List StacItem) : List (String × ℕ) :=
  let merged := (clusters_of items).foldl
    (fun acc c => insertMax acc (keyStr c.centerLat c.centerLon) c.total) []
  (List.insertionSort cellLE merged).filter (fun p => passesThreshold items.length p.2)


/-- Item with an integer-coordinate centroid, for concrete runs. -/
def mkItem (id : ℕ) (la lo : ℤ) : StacItem := ⟨id, 0, some ((la : ℚ), (lo : ℚ)), []⟩


/-- Concrete clustering input: ten items in cell (0,0), five in cell (-1,0). -/
def c8_items : List StacItem :=
  List.replicate 10 (mkItem 0 0 0) ++ List.replicate 5 (mkItem 1 (-1) 0)



/-- Neighbor count map for the C8 witness: seed cell (0,0) with 7 items and
diagonal neighbor (1,1) with 3 items (3 > 0.3 * 7, so it is absorbed). -/
def c8w_countFn : String → ℕ :=
  fun k => if k = "0,0" then 7 else if k = "1,1" then 3 else 0


/-- The cluster formed in the C8 witness run: seed (0,0) of count 7 absorbs
its diagonal neighbor (1,1) of count 3. -/
def c8w_cluster : Cluster := ⟨[0, 1], [0, 1], [7, 3], 10, 0, 0⟩


/-- Microseconds in one hour; datetimes are µs counts and
timedelta(hours=h) adds h * hourU. -/
def hourU : ℤ := 3600000000


/-- One STAC search response page: the features list and whether a
rel="next" continuation link is present. -/
structure Page where
  features : List StacItem
  hasNext : Bool
deriving DecidableEq, Repr


/-- A deterministic HTTP backend for one run: for each queried window
[s, e) the finite script of responses served for page 0, page 1 (first
continuation GET), ...; a none entry is a failed request. -/
def Backend := ℤ → ℤ → List (Option Page)


/-- Result of fetching one window: all collected items (first page plus
followed continuation pages, in arrival order), the first-page length, and
the length of the last fetched page — the value of the Python items
variable after the pagination loop, which is what drives chunk halving. -/
structure FetchRes where
  witems : List StacItem
  firstLen : ℕ
  lastLen : ℕ
deriving DecidableEq, Repr


/-- The continuation loop (lines 643-668): while the last page had exactly
500 items and carried a next link, fetch the next response, append its
features and continue from it; a failed (or absent) response breaks the
loop keeping the items variable as it was. -/
def follow : List (Option Page) → List StacItem → Bool → List StacItem × List StacItem
  | [], items, _ => ([], items)
  | some p :: rest, items, hasNext =>
    if items.length = 500 ∧ hasNext then
      let r := follow rest p.features p.hasNext
      (p.features ++ r.1, r.2)
    else ([], items)
  | none :: _, items, _ => ([], items)


/-- search_catalog plus the continuation loop for one window
(lines 625-668).  The head response is the search_catalog call itself: a
none (non-200) yields the empty dict {}, whose features read back as []. -/
def fetchWindow (b : Backend) (s e : ℤ) : FetchRes :=
  match b s e with
  | some p :: rest =>
    let r := follow rest p.features p.hasNext
    ⟨p.features ++ r.1, p.features.length, r.2.length⟩
  | _ => ⟨[], 0, 0⟩


/-- One window of the sequential loop, instrumented with its collected
items and first/last page lengths. -/
structure WinRec where
  wstart : ℤ
  wend : ℤ
  witems : List StacItem
  firstLen : ℕ
  lastLen : ℕ
deriving DecidableEq, Repr


/-- The chunk-size update after a window (lines 673-676): if the last page
had exactly 500 items and the chunk is above the configured minimum, halve
it (Python // on the non-negative int chunk) flooring at the minimum. -/
def nextChunk (minChunk chunk lastLen : ℕ) : ℕ :=
  if lastLen = 500 ∧ minChunk < chunk then max minChunk (chunk / 2) else chunk


/-- The per-window item list (page 0 plus its continuations). -/
def seqWinItems (b : Backend) (s e : ℤ) : List StacItem := (fetchWindow b s e).witems


/-- The sequential while loop (lines 608-690) as the item list it
accumulates (all_items); fuel bounds the number of iterations and the
entry point supplies provably sufficient fuel. -/
def seqItemsF (b : Backend) (endT : ℤ) (minChunk : ℕ) :
    ℕ → ℤ → ℕ → List StacItem
  | 0, _, _ => []
  | fuel + 1, current, chunk =>
    if current < endT then
      if min (current + (chunk : ℤ) * hourU) endT = current then []
      else
        seqWinItems b current (min (current + (chunk : ℤ) * hourU) endT) ++
          seqItemsF b endT minChunk fuel (min (current + (chunk : ℤ) * hourU) endT)
            (nextChunk minChunk chunk (fetchWindow b current
              (min (current + (chunk : ℤ) * hourU) endT)).lastLen)
    else []


/-- The same loop instrumented to record each emitted window. -/
def seqTraceF (b : Backend) (endT : ℤ) (minChunk : ℕ) :
    ℕ → ℤ → ℕ → List WinRec
  | 0, _, _ => []
  | fuel + 1, current, chunk =>
    if current < endT then
      if min (current + (chunk : ℤ) * hourU) endT = current then []
      else
        ⟨current, min (current + (chunk : ℤ) * hourU) endT,
            (fetchWindow b current (min (current + (chunk : ℤ) * hourU) endT)).witems,
            (fetchWindow b current (min (current + (chunk : ℤ) * hourU) endT)).firstLen,
            (fetchWindow b current (min (current + (chunk : ℤ) * hourU) endT)).lastLen⟩ ::
          seqTraceF b endT minChunk fuel (min (current + (chunk : ℤ) * hourU) endT)
            (nextChunk minChunk chunk (fetchWindow b current
              (min (current + (chunk : ℤ) * hourU) endT)).lastLen)
    else []


/-- Iteration budget: every loop iteration either finishes the range or
advances current by at least one hour, so span/hour + 2 always suffices. -/
def deepFuel (s e : ℤ) : ℕ := (e - s).toNat / 3600000000 + 2


/-- The initial chunk size chosen from the total span (lines 588-594). -/
def initChunk (span : ℤ) : ℕ :=
  if span ≤ 168 * hourU then 24
  else if span ≤ 720 * hourU then 72
  else 168


/-- result.get("features", []) of a single search_catalog call: the first
page of the window, with no continuation following (the span ≤ 24h branch,
line 586, and parallel process_chunk, line 732). -/
def windowFirstPage (b : Backend) (s e : ℤ) : List StacItem :=
  match b s e with
  | some p :: _ => p.features
  | _ => []


/-- The chunk list of the parallel path (lines 710-717): fixed 1-day
windows clipped at the end date. -/
def parChunksF (endT : ℤ) : ℕ → ℤ → List (ℤ × ℤ)
  | 0, _ => []
  | fuel + 1, current =>
    if current < endT then
      (current, min (current + 24 * hourU) endT) ::
        parChunksF endT fuel (min (current + 24 * hourU) endT)
    else []


/-- _search_catalog_parallel (lines 697-752): each chunk is fetched with a
single search_catalog call (first page only, no continuation) and the
results are concatenated.  Worker completion order is nondeterministic in
the source; the embedding merges in submission order, one representative
of the possible arrival orders. -/
def search_catalog_parallel (b : Backend) (s e : ℤ) : List StacItem :=
  ((parChunksF e (deepFuel s e) s).map (fun c => windowFirstPage b c.1 c.2)).flatten


/-- search_catalog_deep (lines 539-695) on already-parsed datetimes: spans
of at most 24h do one plain search (first page only); spans beyond
4 weeks (672h) go parallel; otherwise the sequential adaptive loop runs.
The code picks the initial chunk before the parallel check, but the value
is only used on the sequential path. -/
def search_catalog_deep (b : Backend) (s e : ℤ) (minChunk : ℕ) : List StacItem :=
  if e - s ≤ 24 * hourU then windowFirstPage b s e
  else if 672 * hourU < e - s then search_catalog_parallel b s e
  else seqItemsF b e minChunk (deepFuel s e) s (initChunk (e - s))


/-- The window trace of the sequential deep-search loop, with the same
initial chunk and fuel as search_catalog_deep. -/
def seqTrace (b : Backend) (s e : ℤ) (minChunk : ℕ) : List WinRec :=
  seqTraceF b e minChunk (deepFuel s e) s (initChunk (e - s))


/-- The (start, end) pairs of a window trace. -/
def windowsOf (t : List WinRec) : List (ℤ × ℤ) :=
  t.map (fun w => (w.wstart, w.wend))


/-- ws exactly tiles [a, c): the first window starts at a, every window is
nonempty (start < end), consecutive windows abut, and the last ends at c. -/
def TilesB : ℤ → List (ℤ × ℤ) → ℤ → Bool
  | a, [], c => a == c
  | a, (s, e) :: rest, c => s == a && decide (s < e) && TilesB e rest c


/-- C1's halving rule as the claim states it: triggered by a full FIRST
page of a window, the next window is at most half as wide (floored at the
configured minimum). -/
def claimHalvingStep (minChunk : ℕ) (w w2 : WinRec) : Prop :=
  w.firstLen = 500 →
    w2.wend - w2.wstart ≤ max ((minChunk : ℤ) * hourU) ((w.wend - w.wstart) / 2)


/-- The halving rule the code implements: triggered by a full LAST fetched
page of a window (the items variable after the continuation loop). -/
def halvingStep (minChunk : ℕ) (w w2 : WinRec) : Prop :=
  w.lastLen = 500 →
    w2.wend - w2.wstart ≤ max ((minChunk : ℤ) * hourU) ((w.wend - w.wstart) / 2)


/-- Items of a fixed store with timestamp in [s, e). -/
def itemsIn (items : List StacItem) (s e : ℤ) : List StacItem :=
  items.filter (fun it => decide (s ≤ it.ts ∧ it.ts < e))


/-- A consistent mock backend over a fixed item store: every window query
returns exactly the items whose timestamp falls in that window, in one
page with no continuation link (no truncation). -/
def idealBackend (items : List StacItem) : Backend :=
  fun s e => [some ⟨itemsIn items s e, false⟩]


/-- A contentless item for the concrete backends below. -/
def dItem : StacItem := ⟨0, 0, none, []⟩


/-- Backend serving a single item (id 7) for every queried window. -/
def oneItemBackend : Backend := fun _ _ => [some ⟨[⟨7, 0, none, []⟩], false⟩]


/-- Backend whose response to the window starting at 0 is a full 500-item
first page followed by one continuation page with a single further item;
all other windows are empty. -/
def contBackend : Backend := fun s _ =>
  if s = 0 then [some ⟨List.replicate 500 dItem, true⟩, some ⟨[dItem], false⟩]
  else [some ⟨[], false⟩]


/-- Backend returning a full 500-item page with no continuation link for
every window. -/
def fullPageBackend : Backend := fun _ _ => [some ⟨List.replicate 500 dItem, false⟩]


/-- Backend where every request fails with a non-200 status. -/
def failBackend : Backend := fun _ _ => [none]


/-- Backend where every window succeeds with an empty page. -/
def emptyBackend : Backend := fun _ _ => [some ⟨[], false⟩]



/-- One HTTP response to the catalog search POST. -/
structure SearchResponse where
  status : ℕ
  body : Page
deriving DecidableEq, Repr


/-- search_catalog's handling of the response (lines 516-526): any non-200
status prints an error and returns the empty dict {} — modelled as none —
with no retry and no recorded cause; a 200 returns the parsed body. -/
def search_catalog (resp : SearchResponse) : Option Page :=
  if resp.status ≠ 200 then none else some resp.body


/-- result.get("features", []), the way every caller reads a search_catalog
result: the empty dict of the failure path reads back as an empty page. -/
def result_features (r : Option Page) : List StacItem :=
  match r with
  | none => []
  | some p => p.features


/-- Outcome of one Overpass POST attempt inside get_infrastructure_data:
a status code with a (parsed-body placeholder) payload, a request timeout,
or another network error. -/
inductive OvResp where
  | status (code : ℕ) (body : ℕ)
  | respTimeout
  | netError (msg : String)
deriving DecidableEq, Repr


/-- The failure causes the returned error strings carry. -/
inductive OvCause where
  | rateLimited
  | serverError (code : ℕ)
  | apiError (code : ℕ)
  | queryTimeout
  | networkError (msg : String)
deriving DecidableEq, Repr


/-- Result of the retry loop: parsed body on success, an explicit error
value carrying its cause otherwise. -/
inductive OvResult where
  | ok (body : ℕ)
  | err (cause : OvCause)
deriving DecidableEq, Repr


/-- One iteration of the retry loop (lines 171-202): 200 breaks with the
body; 429 and 5xx retry unless this is the final attempt, which reports
rate-limit resp. server-error; any other status reports immediately;
timeouts and network errors retry unless final.  Backoff sleeps are timing
only and are not modelled. -/
def ovAttempt (r : OvResp) (isLast : Bool) (next : OvResult) : OvResult :=
  match r with
  | .status c body =>
    if c = 200 then .ok body
    else if c = 429 then (if isLast then .err .rateLimited else next)
    else if 500 ≤ c then (if isLast then .err (.serverError c) else next)
    else .err (.apiError c)
  | .respTimeout => if isLast then .err .queryTimeout else next
  | .netError m => if isLast then .err (.networkError m) else next


/-- The retry loop with max_retries = 2: attempts 0 and 1 may retry,
attempt 2 is terminal (its continuation argument is unreachable).  The
post-loop status re-check at line 205 is dead code: every path either
returned or broke with a 200. -/
def get_infrastructure_fetch (r0 r1 r2 : OvResp) : OvResult :=
  ovAttempt r0 false (ovAttempt r1 false (ovAttempt r2 true (.err .queryTimeout)))


/-- Whether a response is a success (status 200). -/
def isOk200 : OvResp → Bool
  | .status c _ => decide (c = 200)
  | _ => false


/-- Whether a response stops the loop at once (a status that is neither
200 nor 429 nor 5xx). -/
def nonRetryable : OvResp → Bool
  | .status c _ => decide (c ≠ 200 ∧ c ≠ 429 ∧ ¬ 500 ≤ c)
  | _ => false


/-- The response at which a fully failing run stops: the first
non-retryable one, else the final attempt. -/
def firstTerminal (r0 r1 r2 : OvResp) : OvResp :=
  if nonRetryable r0 then r0 else if nonRetryable r1 then r1 else r2


/-- The cause a terminal non-200 response maps to in the returned error. -/
def causeOf : OvResp → OvCause
  | .status c _ =>
    if c = 429 then .rateLimited
    else if 500 ≤ c then .serverError c
    else .apiError c
  | .respTimeout => .queryTimeout
  | .netError m => .networkError m


/-! ### Theorems -/

theorem base_type_score_nonneg (etype : Option String) : 0 ≤ base_type_score etype := by
  unfold base_type_score; split_ifs <;> norm_num


theorem name_bonus_nonneg (tags : Tags) : 0 ≤ name_bonus tags := by
  unfold name_bonus
  rcases htg : tgetT tags "name" with _ | v
  · norm_num
  · simp only []
    split_ifs <;> norm_num


theorem beds_bonus_nonneg (tags : Tags) (h : 0 ≤ (beds_val tags).getD 0) :
    0 ≤ beds_bonus tags := by
  unfold beds_bonus
  unfold beds_val at h
  rcases htg : tgetT tags "beds" with _ | v
  · norm_num
  · rcases hp : pyInt? v with _ | n
    · simp [hp]
    · rw [htg] at h
      simp [hp] at h ⊢
      have hf : 0 ≤ Int.fdiv n 10 := Int.fdiv_nonneg h (by norm_num)
      omega


theorem hospital_bonus_nonneg (tags : Tags) (h : 0 ≤ (beds_val tags).getD 0) :
    0 ≤ hospital_bonus tags := by
  unfold hospital_bonus
  split_ifs with hh
  · have := beds_bonus_nonneg tags h; omega
  · norm_num


theorem levels_bonus_nonneg (tags : Tags) : 0 ≤ levels_bonus tags := by
  unfold levels_bonus
  rcases htg : tgetT tags "building:levels" with _ | v
  · norm_num
  · rcases hp : pyInt? v with _ | n
    · simp [hp]
    · simp only [hp]
      split_ifs <;> omega


theorem capacity_bonus_nonneg (tags : Tags) (h : 0 ≤ (capacity_val tags).getD 0) :
    0 ≤ capacity_bonus tags := by
  unfold capacity_bonus
  unfold capacity_val at h
  rcases htg : tgetT tags "capacity" with _ | v
  · norm_num
  · rcases hp : pyInt? v with _ | n
    · simp [hp]
    · rw [htg] at h
      simp [hp] at h ⊢
      have hf : 0 ≤ Int.fdiv n 100 := Int.fdiv_nonneg h (by norm_num)
      omega


theorem importance_bonus_nonneg (tags : Tags) : 0 ≤ importance_bonus tags := by
  unfold importance_bonus; split_ifs <;> norm_num


/-- C7 (counterexample): an attribute map whose capacity value parses to a
negative integer drives the score below zero, refuting the claim that
calculate_significance_score is non-negative for arbitrary string values. -/
theorem score_negative_on_negative_capacity :
    calculate_significance_score none [("capacity", "-10000")] = -100 ∧
      calculate_significance_score none [("capacity", "-10000")] < 0 := by decide


/-- C7 (amended): calculate_significance_score is non-negative for every
element kind and every attribute map whose beds and capacity values, when
present and parseable, are non-negative.  (All other bonuses are
non-negative unconditionally; beds and capacity enter through floor
division of the parsed integer and can be negative.) -/
theorem score_nonneg_of_nonneg_numeric_tags (etype : Option String) (tags : Tags)
    (h1 : 0 ≤ (beds_val tags).getD 0) (h2 : 0 ≤ (capacity_val tags).getD 0) :
    0 ≤ calculate_significance_score etype tags := by
  have b01 := base_type_score_nonneg etype
  have b02 := name_bonus_nonneg tags
  have b03 : 0 ≤ wiki_bonus tags := by unfold wiki_bonus; split_ifs <;> norm_num
  have b04 : 0 ≤ operator_bonus tags := by unfold operator_bonus; split_ifs <;> norm_num
  have b05 : 0 ≤ military_bonus tags := by unfold military_bonus; split_ifs <;> norm_num
  have b06 : 0 ≤ aeroway_bonus tags := by unfold aeroway_bonus; split_ifs <;> norm_num
  have b07 : 0 ≤ power_bonus tags := by unfold power_bonus; split_ifs <;> norm_num
  have b08 : 0 ≤ embassy_bonus tags := by unfold embassy_bonus; split_ifs <;> norm_num
  have b09 : 0 ≤ government_bonus tags := by unfold government_bonus; split_ifs <;> norm_num
  have b10 : 0 ≤ university_bonus tags := by unfold university_bonus; split_ifs <;> norm_num
  have b11 := hospital_bonus_nonneg tags h1
  have b12 : 0 ≤ data_center_bonus tags := by unfold data_center_bonus; split_ifs <;> norm_num
  have b13 : 0 ≤ railway_bonus tags := by unfold railway_bonus; split_ifs <;> norm_num
  have b14 : 0 ≤ industrial_bonus tags := by unfold industrial_bonus; split_ifs <;> norm_num
  have b15 := levels_bonus_nonneg tags
  have b16 := capacity_bonus_nonneg tags h2
  have b17 := importance_bonus_nonneg tags
  unfold calculate_significance_score
  omega


/-- C7 (witness): the amended theorem applied to a concrete hospital element
with a parseable non-negative bed count. -/
theorem score_nonneg_of_nonneg_numeric_tags_witness :
    (0 ≤ (beds_val [("amenity", "hospital"), ("beds", "50")]).getD 0 ∧
        0 ≤ (capacity_val [("amenity", "hospital"), ("beds", "50")]).getD 0) ∧
      0 ≤ calculate_significance_score none [("amenity", "hospital"), ("beds", "50")] :=
  ⟨⟨by decide, by decide⟩,
    score_nonneg_of_nonneg_numeric_tags none [("amenity", "hospital"), ("beds", "50")]
      (by decide) (by decide)⟩


/-- C9: an element of node granularity tagged power=plant, with no name, no
operator, no wikipedia/wikidata reference and no other scoring attributes,
scores exactly 75 = 5 (node) + 70 (power plant). -/
theorem unnamed_point_power_plant_scores_75 :
    calculate_significance_score (some "node") [("power", "plant")] = 75 := by decide


/-- C10: if an element has no name tag but an operator tag whose value is not
the literal "Unnamed", its resolved display name is the operator value and it
survives the low-score discard even below score 15; and the discard removes
exactly the elements that score below 15 and either carry neither a name nor
an operator tag or resolve to the literal name "Unnamed". -/
theorem operator_named_elements_survive_discard (etype : Option String) (tags : Tags) :
    ((tget tags "name" = none) → ∀ v, tget tags "operator" = some v → v ≠ "Unnamed" →
        resolved_name tags = v ∧ discards etype tags = false) ∧
      (discards etype tags = true ↔
        calculate_significance_score etype tags < 15 ∧
          ((tget tags "name" = none ∧ tget tags "operator" = none) ∨
            resolved_name tags = "Unnamed")) := by
  constructor
  · intro hn v hop hv
    have hres : resolved_name tags = v := by
      unfold resolved_name; rw [hn, hop]; rfl
    refine ⟨hres, ?_⟩
    unfold discards
    rw [hres]
    simp [hv]
  · unfold discards
    rw [Bool.and_eq_true, decide_eq_true_iff, beq_iff_eq]
    constructor
    · rintro ⟨hs, hr⟩
      exact ⟨hs, Or.inr hr⟩
    · rintro ⟨hs, hr⟩
      refine ⟨hs, ?_⟩
      rcases hr with ⟨hn, hop⟩ | hr
      · unfold resolved_name; rw [hn, hop]; rfl
      · exact hr


/-- C10 (witness): a concrete element with only an operator tag — score 10,
name resolves to the operator value and the discard does not remove it. -/
theorem operator_named_elements_survive_discard_witness :
    resolved_name [("operator", "ACME")] = "ACME" ∧
      discards none [("operator", "ACME")] = false :=
  (operator_named_elements_survive_discard none [("operator", "ACME")]).1
    (by decide) "ACME" (by decide) (by decide)


theorem chListLe_total : ∀ a b : List Char, chListLe a b = true ∨ chListLe b a = true := by
  intro a
  induction a with
  | nil => intro b; left; rfl
  | cons x xs ih =>
    intro b
    cases b with
    | nil => right; rfl
    | cons y ys =>
      by_cases h1 : x.val.toNat < y.val.toNat
      · left; simp [chListLe, h1]
      · by_cases h2 : y.val.toNat < x.val.toNat
        · right; simp [chListLe, h1, h2]
        · rcases ih ys with h | h
          · left; simp [chListLe, h1, h2, h]
          · right; simp [chListLe, h1, h2, h]


theorem chListLe_trans : ∀ a b c : List Char,
    chListLe a b = true → chListLe b c = true → chListLe a c = true := by
  intro a
  induction a with
  | nil => intro b c _ _; rfl
  | cons x xs ih =>
    intro b c hab hbc
    cases b with
    | nil => simp [chListLe] at hab
    | cons y ys =>
      cases c with
      | nil => simp [chListLe] at hbc
      | cons z zs =>
        simp only [chListLe] at hab hbc ⊢
        by_cases h1 : x.val.toNat < y.val.toNat
        · by_cases h3 : x.val.toNat < z.val.toNat
          · simp [h3]
          · by_cases h2 : y.val.toNat < z.val.toNat
            · omega
            · by_cases h4 : z.val.toNat < y.val.toNat
              · simp [h2, h4] at hbc
              · omega
        · by_cases h5 : y.val.toNat < x.val.toNat
          · simp [h1, h5] at hab
          · simp [h1, h5] at hab
            by_cases h2 : y.val.toNat < z.val.toNat
            · have h3 : x.val.toNat < z.val.toNat := by omega
              simp [h3]
            · by_cases h4 : z.val.toNat < y.val.toNat
              · simp [h2, h4] at hbc
              · simp [h2, h4] at hbc
                have h3 : ¬ x.val.toNat < z.val.toNat := by omega
                have h6 : ¬ z.val.toNat < x.val.toNat := by omega
                simp [h3, h6]
                exact ih ys zs hab hbc


theorem chListLe_antisymm : ∀ a b : List Char,
    chListLe a b = true → chListLe b a = true → a = b := by
  intro a
  induction a with
  | nil =>
    intro b _ hba
    cases b with
    | nil => rfl
    | cons y ys => simp [chListLe] at hba
  | cons x xs ih =>
    intro b hab hba
    cases b with
    | nil => simp [chListLe] at hab
    | cons y ys =>
      simp only [chListLe] at hab hba
      by_cases h1 : x.val.toNat < y.val.toNat
      · simp [h1] at hba
        omega
      · by_cases h2 : y.val.toNat < x.val.toNat
        · simp [h1, h2] at hab
        · simp [h1, h2] at hab hba
          have hxy : x = y := Char.ext (UInt32.toNat.inj (by omega))
          rw [hxy, ih ys hab hba]


theorem pyStrLe_total (a b : String) : pyStrLe a b = true ∨ pyStrLe b a = true :=
  chListLe_total a.data b.data


theorem pyStrLe_trans (a b c : String) :
    pyStrLe a b = true → pyStrLe b c = true → pyStrLe a c = true :=
  chListLe_trans a.data b.data c.data


theorem pyStrLe_antisymm (a b : String) :
    pyStrLe a b = true → pyStrLe b a = true → a = b := by
  intro h1 h2
  have := chListLe_antisymm a.data b.data h1 h2
  cases a; cases b; exact congrArg String.mk this


theorem cellLE_total : ∀ a b : String × ℕ, cellLE a b ∨ cellLE b a := by
  intro a b
  unfold cellLE
  rcases Nat.lt_trichotomy a.2 b.2 with h | h | h
  · right; simp [h]
  · rcases pyStrLe_total a.1 b.1 with hs | hs
    · left; simp [h, hs]
    · right; simp [h, hs]
  · left; simp [h]


theorem cellLE_trans : ∀ a b c : String × ℕ, cellLE a b → cellLE b c → cellLE a c := by
  intro a b c hab hbc
  unfold cellLE at hab hbc ⊢
  simp only [Bool.or_eq_true, Bool.and_eq_true, decide_eq_true_iff, beq_iff_eq] at hab hbc ⊢
  rcases hab with hab | ⟨hab1, hab2⟩ <;> rcases hbc with hbc | ⟨hbc1, hbc2⟩
  · left; omega
  · left; omega
  · left; omega
  · right; exact ⟨hab1.trans hbc1, pyStrLe_trans _ _ _ hab2 hbc2⟩


theorem cellLE_antisymm : ∀ a b : String × ℕ, cellLE a b → cellLE b a → a = b := by
  intro a b hab hba
  unfold cellLE at hab hba
  simp only [Bool.or_eq_true, Bool.and_eq_true, decide_eq_true_iff, beq_iff_eq] at hab hba
  rcases hab with hab | ⟨hab1, hab2⟩ <;> rcases hba with hba | ⟨hba1, hba2⟩ <;>
    try omega
  have hk : a.1 = b.1 := pyStrLe_antisymm _ _ hab2 hba2
  exact Prod.ext hk hab1


/-- C6: the hotspot pipeline is insensitive to the order of its input items:
permuted item lists yield the identical ordered hotspot list. -/
theorem hotspots_insensitive_to_item_order (l1 l2 : List StacItem) (h : l1.Perm l2) :
    analyze_hotspots l1 = analyze_hotspots l2 := by
  have hcs : (cellStrs l1).Perm (cellStrs l2) := h.filterMap _
  have hcnt : (fun k => (cellStrs l1).count k) = (fun k => (cellStrs l2).count k) :=
    funext fun k => hcs.count_eq k
  have hpairfn : (fun k => (k, (cellStrs l1).count k)) = (fun k => (k, (cellStrs l2).count k)) :=
    funext fun k => by rw [hcs.count_eq k]
  have hlen : l1.length = l2.length := h.length_eq
  haveI : IsTotal (String × ℕ) cellLE := ⟨cellLE_total⟩
  haveI : IsTrans (String × ℕ) cellLE := ⟨cellLE_trans⟩
  haveI : IsAntisymm (String × ℕ) cellLE := ⟨cellLE_antisymm⟩
  have hsort : sortedCells l1 = sortedCells l2 := by
    refine @List.eq_of_perm_of_sorted _ cellLE _ _ _ ?_
      (List.sorted_insertionSort cellLE _) (List.sorted_insertionSort cellLE _)
    refine ((List.perm_insertionSort cellLE _).trans ?_).trans
      (List.perm_insertionSort cellLE _).symm
    unfold cellPairs
    rw [hpairfn]
    exact (hcs.dedup).map _
  unfold analyze_hotspots clusters_of
  rw [hsort, hcnt, hlen]


/-- C6 (witness): the theorem applied to a two-item list and its reversal. -/
theorem hotspots_insensitive_to_item_order_witness :
    analyze_hotspots [mkItem 0 2 3, mkItem 1 5 6] =
      analyze_hotspots [mkItem 1 5 6, mkItem 0 2 3] :=
  hotspots_insensitive_to_item_order _ _ (by decide)


theorem scan_total_eq_counts_sum (countFn : String → ℕ) (lat lon : ℤ) (seedCount : ℕ) :
    ∀ (offs : List (ℤ × ℤ)) (st : ScanState), st.total = st.counts.sum →
      (offs.foldl (scanStep countFn lat lon seedCount) st).total =
        (offs.foldl (scanStep countFn lat lon seedCount) st).counts.sum := by
  intro offs
  induction offs with
  | nil => intro st h; exact h
  | cons d ds ih =>
    intro st h
    simp only [List.foldl_cons]
    apply ih
    unfold scanStep
    dsimp only
    split_ifs with hc
    · simp [h]
    · exact h


/-- C8 (amended): every cluster the merge pass emits has as centroid the
floor-divided (Python //) mean of the absorbed cell coordinates — floor, not
truncation toward zero — and as total the sum of the absorbed counts. -/
theorem cluster_centroid_floor_mean (countFn : String → ℕ) (cells : List (String × ℕ)) :
    ∀ (processed : List String) (c : Cluster), c ∈ mergeLoop countFn cells processed →
      c.centerLat = Int.fdiv c.lats.sum (c.lats.length : ℤ) ∧
        c.centerLon = Int.fdiv c.lons.sum (c.lons.length : ℤ) ∧
        c.total = c.counts.sum := by
  induction cells with
  | nil => intro p c hc; simp [mergeLoop] at hc
  | cons kc rest ih =>
    obtain ⟨key, cnt⟩ := kc
    intro p c hc
    simp only [mergeLoop] at hc
    split_ifs at hc with hmem
    · exact ih p c hc
    · rcases List.mem_cons.mp hc with hceq | hctail
      · subst hceq
        refine ⟨rfl, rfl, ?_⟩
        exact scan_total_eq_counts_sum countFn _ _ cnt offsets _ (by simp)
      · exact ih _ c hctail


/-- C8 (witness): the amended theorem applied to the concrete merge of seed
(0,0) (count 7) with its absorbed neighbor (1,1) (count 3). -/
theorem cluster_centroid_floor_mean_witness :
    c8w_cluster ∈ mergeLoop c8w_countFn [("0,0", 7)] [] ∧
      (c8w_cluster.centerLat = Int.fdiv c8w_cluster.lats.sum (c8w_cluster.lats.length : ℤ) ∧
        c8w_cluster.centerLon = Int.fdiv c8w_cluster.lons.sum (c8w_cluster.lons.length : ℤ) ∧
        c8w_cluster.total = c8w_cluster.counts.sum) :=
  ⟨by decide, cluster_centroid_floor_mean c8w_countFn [("0,0", 7)] [] c8w_cluster (by decide)⟩


/-- C8 (counterexample): a cluster that absorbs the cell at latitude -1 into
a seed at latitude 0 gets centroid latitude (0 + -1) // 2 = -1 (floor), while
the claimed truncation toward zero of the mean is 0. -/
theorem cluster_centroid_not_truncated_mean :
    ∃ c ∈ clusters_of c8_items,
      c.centerLat ≠ Int.tdiv c.lats.sum (c.lats.length : ℤ) := by decide


/-- C4 (amended): the value search_catalog_deep's sequential loop returns is
exactly the concatenation of the per-window item lists — the merged item
collection and nothing else; no record of window failures is part of it. -/
theorem deep_search_returns_merged_items_only :
    ∀ (b : Backend) (endT : ℤ) (minChunk fuel : ℕ) (current : ℤ) (chunk : ℕ),
      seqItemsF b endT minChunk fuel current chunk =
        ((seqTraceF b endT minChunk fuel current chunk).map WinRec.witems).flatten := by
  intro b endT minChunk fuel
  induction fuel with
  | zero => intro current chunk; rfl
  | succ f ih =>
    intro current chunk
    simp only [seqItemsF, seqTraceF]
    split_ifs with h1 h2
    · rfl
    · simp only [List.map_cons, List.flatten_cons, seqWinItems]
      rw [ih]
    · rfl


/-- C4 (counterexample): a run in which every window fails terminally
returns a value equal to that of a run in which every window succeeds with
zero items — the returned value does not convey which windows failed. -/
theorem failed_window_indistinguishable_from_empty :
    search_catalog_deep failBackend 0 (48 * hourU) 1 =
        search_catalog_deep emptyBackend 0 (48 * hourU) 1 ∧
      failBackend 0 (24 * hourU) = [none] ∧
      emptyBackend 0 (24 * hourU) = [some ⟨[], false⟩] :=
  ⟨by decide, rfl, rfl⟩


/-- C1 (counterexample): in the run against contBackend the first window's
first page is full (500 items) but its last page is not, so the code does
not halve: the second window is as wide as the first, refuting the claim
read on first pages. -/
theorem halving_not_triggered_by_full_first_page :
    ¬ List.Chain' (claimHalvingStep 1) (seqTrace contBackend 0 (48 * hourU) 1) := by
  intro h
  have hm : (seqTrace contBackend 0 (48 * hourU) 1).map
        (fun w => (w.wstart, w.wend, w.firstLen, w.lastLen)) =
      [(0, 24 * hourU, 500, 1), (24 * hourU, 48 * hourU, 0, 0)] := by decide
  rcases htr : seqTrace contBackend 0 (48 * hourU) 1 with _ | ⟨w0, t1⟩
  · rw [htr] at hm; simp at hm
  rcases t1 with _ | ⟨w1, t2⟩
  · rw [htr] at hm; simp at hm
  rw [htr] at h hm
  simp only [List.map_cons, List.cons.injEq, Prod.mk.injEq] at hm
  obtain ⟨⟨h0s, h0e, h0f, -⟩, ⟨h1s, h1e, -, -⟩, -⟩ := hm
  have hr := (List.chain'_cons.mp h).1
  unfold claimHalvingStep at hr
  have hle := hr h0f
  rw [h0s, h0e, h1s, h1e] at hle
  unfold hourU at hle
  omega


/-- C1 (amended): along every sequential run, whenever a window's LAST
fetched page has exactly 500 items, the next emitted window is at most half
as wide, floored at the configured minimum chunk size. -/
theorem next_window_halved_after_full_last_page :
    ∀ (b : Backend) (endT : ℤ) (minChunk fuel : ℕ) (current : ℤ) (chunk : ℕ),
      List.Chain' (halvingStep minChunk) (seqTraceF b endT minChunk fuel current chunk) := by
  intro b endT minChunk fuel
  induction fuel with
  | zero => intro current chunk; exact List.chain'_nil
  | succ f ih =>
    intro current chunk
    simp only [seqTraceF]
    split_ifs with h1 h2
    · exact List.chain'_nil
    · rw [List.chain'_cons']
      refine ⟨?_, ih _ _⟩
      intro w2 hw2
      unfold halvingStep
      intro h500
      dsimp only at h500 ⊢
      rcases hf : f with _ | g
    -- with zero remaining fuel there is no next window
      · rw [hf] at hw2; simp [seqTraceF] at hw2
      · rw [hf] at hw2
        simp only [seqTraceF] at hw2
        split_ifs at hw2 with h3 h4
        · simp at hw2
        · simp only [List.head?_cons, Option.mem_some_iff] at hw2
          subst hw2
          dsimp only
          rw [h500]
          have hnotclip : min (current + (chunk : ℤ) * hourU) endT =
              current + (chunk : ℤ) * hourU := by
            unfold hourU at *
            omega
          rw [h500] at h4
          rw [hnotclip] at h4 ⊢
          unfold nextChunk at h4 ⊢
          simp only [true_and] at h4 ⊢
          split_ifs at h4 ⊢ with hlt
          · unfold hourU at *
            push_cast at h4 ⊢
            omega
          · unfold hourU at *
            omega
        · simp at hw2
    · exact List.chain'_nil



theorem seqItemsF_stop (b : Backend) (endT : ℤ) (m : ℕ) :
    ∀ (fuel : ℕ) (current : ℤ) (chunk : ℕ), ¬ current < endT →
      seqItemsF b endT m fuel current chunk = [] := by
  intro fuel current chunk h
  cases fuel <;> simp [seqItemsF, h]


theorem seqTraceF_stop (b : Backend) (endT : ℤ) (m : ℕ) :
    ∀ (fuel : ℕ) (current : ℤ) (chunk : ℕ), ¬ current < endT →
      seqTraceF b endT m fuel current chunk = [] := by
  intro fuel current chunk h
  cases fuel <;> simp [seqTraceF, h]


theorem nextChunk_ge_one (minChunk chunk l : ℕ) (hm : 1 ≤ minChunk) (hc : 1 ≤ chunk) :
    1 ≤ nextChunk minChunk chunk l := by
  unfold nextChunk
  split_ifs with h
  · omega
  · exact hc


theorem initChunk_ge_one (span : ℤ) : 1 ≤ initChunk span := by
  unfold initChunk
  split_ifs <;> norm_num


theorem deepFuel_bound (s e : ℤ) : e - s ≤ ((deepFuel s e : ℕ) : ℤ) * hourU := by
  unfold deepFuel hourU
  have h1 : e - s ≤ ((e - s).toNat : ℤ) := Int.self_le_toNat _
  have h2 : (e - s).toNat ≤ 3600000000 * ((e - s).toNat / 3600000000) + 3600000000 := by
    have h3 := Nat.div_add_mod (e - s).toNat 3600000000
    have h4 : (e - s).toNat % 3600000000 < 3600000000 := Nat.mod_lt _ (by norm_num)
    omega
  push_cast
  omega


theorem seq_tiles_aux (b : Backend) (endT : ℤ) (minChunk : ℕ) :
    ∀ (fuel : ℕ) (current : ℤ) (chunk : ℕ),
      current < endT → 1 ≤ chunk → 1 ≤ minChunk →
      endT - current ≤ (fuel : ℤ) * hourU →
      TilesB current (windowsOf (seqTraceF b endT minChunk fuel current chunk)) endT = true := by
  intro fuel
  induction fuel with
  | zero =>
    intro current chunk h1 _ _ h4
    exfalso
    unfold hourU at h4
    push_cast at h4
    omega
  | succ f ih =>
    intro current chunk h1 hchunk hmin h4
    simp only [seqTraceF]
    rw [if_pos h1]
    have hcep : current < min (current + (chunk : ℤ) * hourU) endT := by
      unfold hourU at *
      omega
    rw [if_neg (by omega : ¬ min (current + (chunk : ℤ) * hourU) endT = current)]
    simp only [windowsOf, List.map_cons, TilesB, Bool.and_eq_true, beq_iff_eq,
      decide_eq_true_eq]
    refine ⟨⟨by simp, hcep⟩, ?_⟩
    by_cases hend : min (current + (chunk : ℤ) * hourU) endT = endT
    · rw [hend, seqTraceF_stop b endT minChunk f endT _ (lt_irrefl endT)]
      simp [windowsOf, TilesB]
    · have hlt2 : min (current + (chunk : ℤ) * hourU) endT < endT :=
        lt_of_le_of_ne (min_le_right _ _) hend
      apply ih
      · exact hlt2
      · exact nextChunk_ge_one minChunk chunk _ hmin hchunk
      · exact hmin
      · have heq : min (current + (chunk : ℤ) * hourU) endT =
            current + (chunk : ℤ) * hourU := by
          unfold hourU at *
          omega
        rw [heq]
        unfold hourU at *
        push_cast at h4 ⊢
        omega


/-- C5 (amended): for every backend, every range with span strictly between
24 hours and 4 weeks, and every configured minimum chunk size of at least
one hour, the windows of the sequential deep-search run exactly tile the
requested range: first window starts at the requested start, consecutive
windows abut with no gap or overlap, every window is nonempty, and the last
window ends at the requested end. -/
theorem seq_windows_tile_range (b : Backend) (s e : ℤ) (minChunk : ℕ)
    (hm : 1 ≤ minChunk) (h1 : 24 * hourU < e - s) (_h2 : e - s ≤ 672 * hourU) :
    TilesB s (windowsOf (seqTrace b s e minChunk)) e = true := by
  unfold seqTrace
  apply seq_tiles_aux
  · unfold hourU at h1
    omega
  · exact initChunk_ge_one (e - s)
  · exact hm
  · exact deepFuel_bound s e


/-- C5 (witness): the tiling theorem applied to a concrete 48-hour run. -/
theorem seq_windows_tile_range_witness :
    (1 ≤ 1 ∧ 24 * hourU < 48 * hourU - 0 ∧ 48 * hourU - 0 ≤ 672 * hourU) ∧
      TilesB 0 (windowsOf (seqTrace emptyBackend 0 (48 * hourU) 1)) (48 * hourU) = true :=
  ⟨⟨le_refl 1, by norm_num [hourU], by norm_num [hourU]⟩,
    seq_windows_tile_range emptyBackend 0 (48 * hourU) 1 (le_refl 1)
      (by norm_num [hourU]) (by norm_num [hourU])⟩


/-- C5 (counterexample): with min_chunk_hours = 0 (accepted by the CLI) and
a backend that always fills its pages, the chunk size halves down to 0 and
the loop breaks before reaching the requested end: the produced windows
stop at hour 46 of the 48-hour range, so they do not tile it. -/
theorem seq_windows_gap_on_zero_min_chunk :
    24 * hourU < 48 * hourU - 0 ∧ 48 * hourU - 0 ≤ 672 * hourU ∧
      TilesB 0 (windowsOf (seqTrace fullPageBackend 0 (48 * hourU) 0)) (48 * hourU) = false := by
  refine ⟨by norm_num [hourU], by norm_num [hourU], by decide⟩


theorem itemsIn_eq_nil (items : List StacItem) (s e : ℤ) (h : e ≤ s) :
    itemsIn items s e = [] := by
  induction items with
  | nil => rfl
  | cons x xs ih =>
    unfold itemsIn at *
    have hx : ¬ (decide (s ≤ x.ts ∧ x.ts < e) = true) := by
      simp only [decide_eq_true_eq]
      omega
    simp only [List.filter_cons, if_neg hx]
    exact ih


theorem itemsIn_split (items : List StacItem) (a b c : ℤ) (h1 : a ≤ b) (h2 : b ≤ c) :
    (itemsIn items a b ++ itemsIn items b c).Perm (itemsIn items a c) := by
  induction items with
  | nil => simp [itemsIn]
  | cons x xs ih =>
    unfold itemsIn at *
    simp only [List.filter_cons]
    by_cases hx1 : a ≤ x.ts ∧ x.ts < b
    · have hx2 : ¬ (b ≤ x.ts ∧ x.ts < c) := by omega
      have hx3 : a ≤ x.ts ∧ x.ts < c := by omega
      rw [if_pos (by simpa using hx1), if_neg (by simpa using hx2),
        if_pos (by simpa using hx3)]
      simp only [List.cons_append]
      exact ih.cons x
    · by_cases hx2 : b ≤ x.ts ∧ x.ts < c
      · have hx3 : a ≤ x.ts ∧ x.ts < c := by omega
        rw [if_neg (by simpa using hx1), if_pos (by simpa using hx2),
          if_pos (by simpa using hx3)]
        exact (List.perm_middle).trans (ih.cons x)
      · have hx3 : ¬ (a ≤ x.ts ∧ x.ts < c) := by omega
        rw [if_neg (by simpa using hx1), if_neg (by simpa using hx2),
          if_neg (by simpa using hx3)]
        exact ih


theorem seqWinItems_ideal (items : List StacItem) (s e : ℤ) :
    seqWinItems (idealBackend items) s e = itemsIn items s e := by
  unfold seqWinItems fetchWindow idealBackend follow
  simp


theorem windowFirstPage_ideal (items : List StacItem) (s e : ℤ) :
    windowFirstPage (idealBackend items) s e = itemsIn items s e := rfl


theorem seq_ideal_perm (items : List StacItem) (endT : ℤ) (minChunk : ℕ)
    (hm : 1 ≤ minChunk) :
    ∀ (fuel : ℕ) (current : ℤ) (chunk : ℕ), 1 ≤ chunk →
      endT - current ≤ (fuel : ℤ) * hourU →
      (seqItemsF (idealBackend items) endT minChunk fuel current chunk).Perm
        (itemsIn items current endT) := by
  intro fuel
  induction fuel with
  | zero =>
    intro current chunk _ h4
    rw [itemsIn_eq_nil items _ _ (by unfold hourU at h4; push_cast at h4; omega)]
    exact List.Perm.refl _
  | succ f ih =>
    intro current chunk hchunk h4
    by_cases h1 : current < endT
    · simp only [seqItemsF]
      rw [if_pos h1]
      have hcep : current < min (current + (chunk : ℤ) * hourU) endT := by
        unfold hourU at *
        omega
      rw [if_neg (by omega : ¬ min (current + (chunk : ℤ) * hourU) endT = current)]
      rw [seqWinItems_ideal]
      by_cases hend : min (current + (chunk : ℤ) * hourU) endT = endT
      · rw [hend, seqItemsF_stop _ _ _ f endT _ (lt_irrefl endT), List.append_nil]
      · have hlt2 : min (current + (chunk : ℤ) * hourU) endT < endT :=
          lt_of_le_of_ne (min_le_right _ _) hend
        have hbound2 : endT - min (current + (chunk : ℤ) * hourU) endT ≤ (f : ℤ) * hourU := by
          have heq : min (current + (chunk : ℤ) * hourU) endT =
              current + (chunk : ℤ) * hourU := by
            unfold hourU at *
            omega
          rw [heq]
          unfold hourU at *
          push_cast at h4 ⊢
          omega
        have hrec := ih (min (current + (chunk : ℤ) * hourU) endT)
          (nextChunk minChunk chunk (fetchWindow (idealBackend items) current
            (min (current + (chunk : ℤ) * hourU) endT)).lastLen)
          (nextChunk_ge_one minChunk chunk _ hm hchunk) hbound2
        exact (List.Perm.append_left _ hrec).trans
          (itemsIn_split items current (min (current + (chunk : ℤ) * hourU) endT) endT
            (le_of_lt hcep) (le_of_lt hlt2))
    · rw [seqItemsF_stop _ _ _ _ _ _ h1, itemsIn_eq_nil items _ _ (by omega)]


theorem par_ideal_perm (items : List StacItem) (endT : ℤ) :
    ∀ (fuel : ℕ) (current : ℤ), endT - current ≤ (fuel : ℤ) * hourU →
      (((parChunksF endT fuel current).map
          (fun c => windowFirstPage (idealBackend items) c.1 c.2)).flatten).Perm
        (itemsIn items current endT) := by
  intro fuel
  induction fuel with
  | zero =>
    intro current h4
    rw [itemsIn_eq_nil items _ _ (by unfold hourU at h4; push_cast at h4; omega)]
    exact List.Perm.refl _
  | succ f ih =>
    intro current h4
    by_cases h1 : current < endT
    · simp only [parChunksF]
      rw [if_pos h1]
      simp only [List.map_cons, List.flatten_cons]
      rw [windowFirstPage_ideal]
      by_cases hend : min (current + 24 * hourU) endT = endT
      · rw [hend]
        have hstop : parChunksF endT f endT = [] := by
          cases f <;> simp [parChunksF]
        rw [hstop]
        simp only [List.map_nil, List.flatten_nil, List.append_nil]
        exact List.Perm.refl _

      · have hcep : current < min (current + 24 * hourU) endT := by
          unfold hourU at *
          omega
        have hlt2 : min (current + 24 * hourU) endT < endT :=
          lt_of_le_of_ne (min_le_right _ _) hend
        have hbound2 : endT - min (current + 24 * hourU) endT ≤ (f : ℤ) * hourU := by
          have heq : min (current + 24 * hourU) endT = current + 24 * hourU := by
            unfold hourU at *
            omega
          rw [heq]
          unfold hourU at *
          push_cast at h4 ⊢
          omega
        exact (List.Perm.append_left _ (ih _ hbound2)).trans
          (itemsIn_split items current (min (current + 24 * hourU) endT) endT
            (le_of_lt hcep) (le_of_lt hlt2))
    · simp only [parChunksF]
      rw [if_neg h1, itemsIn_eq_nil items _ _ (by omega)]
      exact List.Perm.refl _


/-- C2 (amended): over a consistent deterministic backend — one that answers
every window query with exactly the stored items whose timestamps fall in
the window, in one page with no truncation — and a minimum chunk size of at
least one hour, sequential deep search (as run by search_catalog_deep on a
sequential-regime span) and parallel deep search return item collections
with the same total count and the same multiset of item identifiers. -/
theorem parallel_equals_sequential_on_consistent_backend
    (items : List StacItem) (s e : ℤ) (minChunk : ℕ) (hm : 1 ≤ minChunk)
    (h1 : 24 * hourU < e - s) (h2 : e - s ≤ 672 * hourU) :
    (search_catalog_deep (idealBackend items) s e minChunk).length =
        (search_catalog_parallel (idealBackend items) s e).length ∧
      ((search_catalog_deep (idealBackend items) s e minChunk).map StacItem.ident).Perm
        ((search_catalog_parallel (idealBackend items) s e).map StacItem.ident) := by
  have hseq : (search_catalog_deep (idealBackend items) s e minChunk).Perm
      (itemsIn items s e) := by
    unfold search_catalog_deep
    rw [if_neg (by omega), if_neg (by unfold hourU at *; omega)]
    exact seq_ideal_perm items e minChunk hm (deepFuel s e) s (initChunk (e - s))
      (initChunk_ge_one (e - s)) (deepFuel_bound s e)
  have hpar : (search_catalog_parallel (idealBackend items) s e).Perm
      (itemsIn items s e) := by
    unfold search_catalog_parallel
    exact par_ideal_perm items e (deepFuel s e) s (deepFuel_bound s e)
  have hp := hseq.trans hpar.symm
  exact ⟨hp.length_eq, hp.map _⟩


/-- C2 (witness): the equivalence applied to a concrete two-item store on a
48-hour range. -/
theorem parallel_equals_sequential_witness :
    (1 ≤ 1 ∧ 24 * hourU < 48 * hourU - 0 ∧ 48 * hourU - 0 ≤ 672 * hourU) ∧
      ((search_catalog_deep (idealBackend [⟨1, 30 * hourU, none, []⟩, ⟨2, 40 * hourU, none, []⟩])
            0 (48 * hourU) 1).length =
          (search_catalog_parallel (idealBackend
            [⟨1, 30 * hourU, none, []⟩, ⟨2, 40 * hourU, none, []⟩]) 0 (48 * hourU)).length ∧
        ((search_catalog_deep (idealBackend [⟨1, 30 * hourU, none, []⟩, ⟨2, 40 * hourU, none, []⟩])
            0 (48 * hourU) 1).map StacItem.ident).Perm
          ((search_catalog_parallel (idealBackend
            [⟨1, 30 * hourU, none, []⟩, ⟨2, 40 * hourU, none, []⟩]) 0 (48 * hourU)).map
              StacItem.ident)) :=
  ⟨⟨le_refl 1, by norm_num [hourU], by norm_num [hourU]⟩,
    parallel_equals_sequential_on_consistent_backend
      [⟨1, 30 * hourU, none, []⟩, ⟨2, 40 * hourU, none, []⟩] 0 (48 * hourU) 1
      (le_refl 1) (by norm_num [hourU]) (by norm_num [hourU])⟩


/-- C2 (counterexample): against the deterministic backend that answers one
item per queried window, sequential deep search over a 4-week range issues
10 windows (72-hour chunks) while parallel deep search issues 28 one-day
windows, so the two return different totals. -/
theorem parallel_and_sequential_counts_differ :
    (search_catalog_deep oneItemBackend 0 (672 * hourU) 1).length ≠
      (search_catalog_parallel oneItemBackend 0 (672 * hourU)).length := by decide


/-- C3 (counterexample): search_catalog returns the identical value — the
empty mapping, carrying no cause — for a rate-limited and for a
server-error response, and a caller extracting features cannot tell this
failure apart from a successful empty page. -/
theorem catalog_failure_is_silent_empty_page :
    search_catalog ⟨429, ⟨[dItem], true⟩⟩ = search_catalog ⟨503, ⟨[dItem], true⟩⟩ ∧
      result_features (search_catalog ⟨503, ⟨[dItem], true⟩⟩) =
        result_features (search_catalog ⟨200, ⟨[], false⟩⟩) := by decide


theorem ovAttempt_retryable (r : OvResp) (h : isOk200 r = false)
    (hn : nonRetryable r = false) (next : OvResult) : ovAttempt r false next = next := by
  rcases r with ⟨c, b⟩ | _ | m
  · simp only [isOk200, decide_eq_false_iff_not] at h
    simp only [nonRetryable, decide_eq_false_iff_not] at hn
    push_neg at hn
    simp only [ovAttempt]
    rw [if_neg h]
    by_cases h429 : c = 429
    · rw [if_pos h429]
      rfl
    · rw [if_neg h429, if_pos (hn h h429)]
      rfl
  · rfl
  · rfl


theorem ovAttempt_immediate (r : OvResp) (h : isOk200 r = false)
    (hn : nonRetryable r = true) (next : OvResult) :
    ovAttempt r false next = OvResult.err (causeOf r) := by
  rcases r with ⟨c, b⟩ | _ | m
  · simp only [nonRetryable, decide_eq_true_eq] at hn
    obtain ⟨h200, h429, h5⟩ := hn
    simp only [ovAttempt, causeOf]
    rw [if_neg h200, if_neg h429, if_neg h5, if_neg h429, if_neg h5]
  · simp [nonRetryable] at hn
  · simp [nonRetryable] at hn


theorem ovAttempt_last (r : OvResp) (h : isOk200 r = false) (next : OvResult) :
    ovAttempt r true next = OvResult.err (causeOf r) := by
  rcases r with ⟨c, b⟩ | _ | m
  · simp only [isOk200, decide_eq_false_iff_not] at h
    simp only [ovAttempt, causeOf]
    rw [if_neg h]
    by_cases h429 : c = 429
    · rw [if_pos h429, if_pos h429]
      rfl
    · rw [if_neg h429, if_neg h429]
      by_cases h5 : 500 ≤ c
      · rw [if_pos h5, if_pos h5]
        rfl
      · rw [if_neg h5, if_neg h5]
  · rfl
  · rfl


/-- C3 (amended): the catalog fetch itself has no retries and returns the
empty mapping with no cause on every non-200 response; it is the
infrastructure (Overpass) fetch that, when no attempt succeeds, returns an
explicit error result carrying the cause of the response at which it
stopped — rate-limited, server-error, other api error, timeout, or network
error — and never a success-shaped value. -/
theorem terminal_failures_carry_cause (s : ℕ) (b : Page) (r0 r1 r2 : OvResp)
    (hs : s ≠ 200) (h0 : isOk200 r0 = false) (h1 : isOk200 r1 = false)
    (h2 : isOk200 r2 = false) :
    search_catalog ⟨s, b⟩ = none ∧
      get_infrastructure_fetch r0 r1 r2 =
        OvResult.err (causeOf (firstTerminal r0 r1 r2)) := by
  constructor
  · unfold search_catalog
    simp [hs]
  · unfold get_infrastructure_fetch firstTerminal
    by_cases hn0 : nonRetryable r0 = true
    · rw [if_pos hn0, ovAttempt_immediate r0 h0 hn0]
    · rw [if_neg hn0, ovAttempt_retryable r0 h0 (by simpa using hn0)]
      by_cases hn1 : nonRetryable r1 = true
      · rw [if_pos hn1, ovAttempt_immediate r1 h1 hn1]
      · rw [if_neg hn1, ovAttempt_retryable r1 h1 (by simpa using hn1),
          ovAttempt_last r2 h2]


/-- C3 (witness): the amended theorem at a concrete fully failing run — a
timeout, then a 502, then a 429, reported as rate-limited. -/
theorem terminal_failures_carry_cause_witness :
    search_catalog ⟨500, ⟨[], false⟩⟩ = none ∧
      get_infrastructure_fetch OvResp.respTimeout (OvResp.status 502 9) (OvResp.status 429 9) =
        OvResult.err (causeOf (firstTerminal OvResp.respTimeout
          (OvResp.status 502 9) (OvResp.status 429 9))) :=
  terminal_failures_carry_cause 500 ⟨[], false⟩ OvResp.respTimeout
    (OvResp.status 502 9) (OvResp.status 429 9) (by decide) (by decide) (by decide) (by decide)


end StacTrace
